/-
Verification of the Qwen-Image-Edit proxy worker (Cloudflare Workers variant).

The definitions below are a shallow embedding of src/worker/index.ts and of
the model registry module (src/unnamed/part_003, the model-manager): pure
functions are translated directly; network calls are made explicit by
passing the observed response (or its absence) as a parameter; the
process-wide backend cache is explicit state.  JavaScript truthiness on
strings (the empty string is falsy) and on optional fields is modelled
explicitly where the source relies on it.
-/
import Mathlib

namespace QwenProxy

/-! ## Base64 encoding (worker/index.ts, arrayBufferToBase64)

The worker encodes an ArrayBuffer by building a binary string in 32KB
chunks (String.fromCharCode per chunk, concatenated) and passing the result
to btoa.  Bytes are modelled as natural numbers below 256; the binary
string is the list of its character codes, which is exactly the byte list.
-/

/-- Characters of the standard base64 alphabet, in sextet order. -/
def base64Table : List Char :=
  "ABCDEFGHIJKLMNOPQRSTUVWXYZabcdefghijklmnopqrstuvwxyz0123456789+/".toList

/-- Character the base64 alphabet assigns to a sextet. -/
def sextetChar (n : Nat) : Char := base64Table.getD n 'A'

/-- Index search in a character list, carrying the current index. -/
def lookupIdx (c : Char) : List Char → Nat → Option Nat
  | [], _ => none
  | d :: rest, i => if d = c then some i else lookupIdx c rest (i + 1)

/-- Sextet a base64 character stands for, if any. -/
def charSextet (c : Char) : Option Nat := lookupIdx c base64Table 0

/-- Base64 encoding of a byte list, three bytes to four characters, with
padding on a trailing group of one or two bytes.  This is the encoding btoa
performs on a binary string of the given character codes. -/
def encodeGroups : List Nat → List Char
  | [] => []
  | [b1] =>
      [sextetChar (b1 / 4), sextetChar (b1 % 4 * 16), '=', '=']
  | [b1, b2] =>
      [sextetChar (b1 / 4), sextetChar (b1 % 4 * 16 + b2 / 16),
       sextetChar (b2 % 16 * 4), '=']
  | b1 :: b2 :: b3 :: rest =>
      sextetChar (b1 / 4) :: sextetChar (b1 % 4 * 16 + b2 / 16) ::
      sextetChar (b2 % 16 * 4 + b3 / 64) :: sextetChar (b3 % 64) ::
      encodeGroups rest

/-- The btoa primitive: base64 encoding of a binary string given by its
character codes. -/
def btoa (codes : List Nat) : String := String.mk (encodeGroups codes)

/-- Chunk size used by arrayBufferToBase64: 0x8000 bytes. -/
def chunkSize : Nat := 32768

/-- Binary-string construction of arrayBufferToBase64: the loop walks the
byte array in chunkSize steps and appends each chunk (as character codes)
to the accumulated binary string. -/
def buildBinary (bytes : List Nat) : List Nat :=
  if bytes = [] then []
  else bytes.take chunkSize ++ buildBinary (bytes.drop chunkSize)
termination_by bytes.length
decreasing_by
  have hpos : 0 < bytes.length := List.length_pos.mpr (by assumption)
  simp only [List.length_drop, chunkSize]
  omega

/-- Embedding of arrayBufferToBase64 (worker/index.ts lines 68 to 77):
chunked binary-string construction followed by btoa. -/
def arrayBufferToBase64 (bytes : List Nat) : String := btoa (buildBinary bytes)

/-- Decoding of one base64 quad, honouring padding. -/
def decodeQuad (c1 c2 c3 c4 : Char) : Option (List Nat) :=
  match charSextet c1, charSextet c2 with
  | some s1, some s2 =>
    if c3 = '=' then
      if c4 = '=' then some [s1 * 4 + s2 / 16] else none
    else
      match charSextet c3 with
      | some s3 =>
        if c4 = '=' then some [s1 * 4 + s2 / 16, s2 % 16 * 16 + s3 / 4]
        else
          match charSextet c4 with
          | some s4 =>
              some [s1 * 4 + s2 / 16, s2 % 16 * 16 + s3 / 4, s3 % 4 * 64 + s4]
          | none => none
      | none => none
  | _, _ => none

/-- Decoding of a base64 character sequence, four characters at a time. -/
def decodeGroups : List Char → Option (List Nat)
  | [] => some []
  | c1 :: c2 :: c3 :: c4 :: rest =>
    match decodeQuad c1 c2 c3 c4, decodeGroups rest with
    | some bs, some bs2 => some (bs ++ bs2)
    | _, _ => none
  | _ => none

/-- Standard base64 decoding (the atob primitive), the inverse direction of
the round-trip property; the repository itself never decodes. -/
def atob (s : String) : Option (List Nat) := decodeGroups s.toList

/-! ## Dimension calculation (worker/index.ts, calculateDimensions) -/

/-- Rounding of num / den to the nearest integer, halves up: this is what
Math.round computes on a non-negative quotient. -/
def mathRound (num den : Nat) : Nat := (2 * num + den) / (2 * den)

/-- Ratio lookup table of calculateDimensions; an unknown key falls through
to the pair (1, 1), as the source writes ratios[aspectRatio] || [1, 1]. -/
def ratioTable (key : String) : Nat × Nat :=
  if key = "1:1" then (1, 1)
  else if key = "16:9" then (16, 9)
  else if key = "9:16" then (9, 16)
  else if key = "4:3" then (4, 3)
  else if key = "3:4" then (3, 4)
  else if key = "3:2" then (3, 2)
  else if key = "2:3" then (2, 3)
  else (1, 1)

/-- The seven keys the table of calculateDimensions lists. -/
def supportedAspectKeys : List String :=
  ["1:1", "16:9", "9:16", "4:3", "3:4", "3:2", "2:3"]

/-- Embedding of calculateDimensions (worker/index.ts lines 281 to 303):
the pair is (width, height). -/
def calculateDimensions (key : String) (baseSize : Nat) : Nat × Nat :=
  let wh := ratioTable key
  if wh.2 ≤ wh.1 then
    (baseSize, mathRound (baseSize * wh.2) wh.1)
  else
    (mathRound (baseSize * wh.1) wh.2, baseSize)

/-! ## Translation pre-pass (worker/index.ts, translateToEnglish)

The fetch of the MyMemory endpoint is made explicit: the outcome parameter
records whether the call threw, returned a non-2xx response, or returned a
body, and whether that body parsed to a payload.  The optional chain
responseData?.translatedText is flattened to one optional string. -/

/-- Parsed translation payload: responseStatus and, when the nested
responseData.translatedText chain is present, its string. -/
structure TranslationPayload where
  responseStatus : Int
  translatedText : Option String
deriving DecidableEq, Repr

/-- Outcome of the translation fetch as the worker observes it. -/
inductive TranslateFetchOutcome
  | threw
  | notOk (status : Nat)
  | okResp (payload : Option TranslationPayload)
deriving DecidableEq, Repr

/-- Embedding of translateToEnglish (worker/index.ts lines 39 to 65).  A
thrown fetch, a non-2xx response and an unparsable body each return the
original text; a payload returns its translation only when responseStatus
is 200 and the translated text is present and truthy (non-empty). -/
def translateToEnglish (text : String) (outcome : TranslateFetchOutcome) : String :=
  match outcome with
  | .threw => text
  | .notOk _ => text
  | .okResp none => text
  | .okResp (some d) =>
    if d.responseStatus = 200 then
      match d.translatedText with
      | some t => if t = "" then text else t
      | none => text
    else text

/-! ## Backend health probing (worker/index.ts, checkLocalServer,
checkReplicateAPI, checkHFSpace, initBackend)

Each probe is a fetch with an abort timeout; the embedding passes the
observed response (none when the fetch threw, timed out or returned a
non-2xx status).  The probe constants record the endpoint and timeout each
check uses in the source. -/

/-- Backend mode union of worker/types.ts. -/
inductive BackendMode
  | localMode
  | cloud
  | unavailable
deriving DecidableEq, Repr

/-- BackendStatus record of worker/types.ts. -/
structure BackendStatus where
  mode : BackendMode
  cudaAvailable : Bool
  directmlAvailable : Bool
  gpuVendor : String
  gpuName : String
  gpuInfo : String
  backend : String
  modelLoaded : Bool
  lastCheck : Nat
deriving DecidableEq, Repr

/-- JSON body of a successful local /health response; every field is
optional and defaulted by the worker. -/
structure LocalHealth where
  cuda_available : Option Bool
  directml_available : Option Bool
  gpu_vendor : Option String
  gpu_name : Option String
  gpu_info : Option String
  backend : Option String
  model_loaded : Option Bool
deriving DecidableEq, Repr

/-- Timeout of the local /health probe in milliseconds. -/
def localProbeTimeoutMs : Nat := 3000

/-- Path of the local probe. -/
def localProbePath : String := "/health"

/-- Timeout of the Replicate model-metadata probe in milliseconds. -/
def replicateProbeTimeoutMs : Nat := 5000

/-- Endpoint of the Replicate model-metadata probe. -/
def replicateProbeUrl : String :=
  "https://api.replicate.com/v1/models/qwen/qwen-image-edit-2511"

/-- Authorization header value the Replicate probe sends. -/
def replicateAuthHeader (apiToken : String) : String := "Bearer " ++ apiToken

/-- Timeout of the HuggingFace Space config probe in milliseconds. -/
def hfProbeTimeoutMs : Nat := 5000

/-- Path of the HuggingFace Space probe. -/
def hfProbePath : String := "/config"

/-- Embedding of checkLocalServer (worker/index.ts lines 84 to 113): on a
2xx /health response the status is local with the GPU capability fields
taken from the body, defaulted where absent; otherwise none. -/
def checkLocalServer (resp : Option LocalHealth) (now : Nat) : Option BackendStatus :=
  match resp with
  | none => none
  | some d => some
      { mode := .localMode
        cudaAvailable := d.cuda_available.getD false
        directmlAvailable := d.directml_available.getD false
        gpuVendor := d.gpu_vendor.getD "unknown"
        gpuName := d.gpu_name.getD ""
        gpuInfo := d.gpu_info.getD ""
        backend := d.backend.getD ""
        modelLoaded := d.model_loaded.getD false
        lastCheck := now }

/-- Embedding of checkReplicateAPI (worker/index.ts lines 116 to 149): with
no token the probe is skipped; on a 2xx metadata response the status is a
fixed cloud record with backend "replicate". -/
def checkReplicateAPI (apiToken : Option String) (respOk : Bool) (now : Nat) :
    Option BackendStatus :=
  match apiToken with
  | none => none
  | some _ =>
    if respOk then some
      { mode := .cloud
        cudaAvailable := true
        directmlAvailable := false
        gpuVendor := "nvidia"
        gpuName := "Replicate Cloud GPU"
        gpuInfo := "Replicate API - Qwen-Image-Edit-2511"
        backend := "replicate"
        modelLoaded := true
        lastCheck := now }
    else none

/-- Embedding of checkHFSpace (worker/index.ts lines 152 to 180): on a 2xx
config response the status is a fixed cloud record with backend
"huggingface". -/
def checkHFSpace (respOk : Bool) (now : Nat) : Option BackendStatus :=
  if respOk then some
    { mode := .cloud
      cudaAvailable := true
      directmlAvailable := false
      gpuVendor := "nvidia"
      gpuName := "Cloud GPU (ZeroGPU)"
      gpuInfo := "HuggingFace Spaces - ZeroGPU制限あり（不安定）"
      backend := "huggingface"
      modelLoaded := true
      lastCheck := now }
  else none

/-- Status stored when every probe fails. -/
def unavailableStatus (now : Nat) : BackendStatus :=
  { mode := .unavailable
    cudaAvailable := false
    directmlAvailable := false
    gpuVendor := "unknown"
    gpuName := ""
    gpuInfo := ""
    backend := ""
    modelLoaded := false
    lastCheck := now }

/-- Process-wide cache: backendStatusCache and lastCheckTime. -/
structure BackendCache where
  statusCache : Option BackendStatus
  lastCheckTime : Nat
deriving DecidableEq, Repr

/-- Embedding of initBackend (worker/index.ts lines 183 to 226): the three
probes run in fixed order, the first success is stored in the cache and
returned; when all fail the unavailable status is stored and returned.  The
previous cache value is never consulted. -/
def initBackend (localResp : Option LocalHealth) (replToken : Option String)
    (replOk : Bool) (hfOk : Bool) (now : Nat) (_cache : BackendCache) :
    BackendStatus × BackendCache :=
  match checkLocalServer localResp now with
  | some st => (st, ⟨some st, now⟩)
  | none =>
    match checkReplicateAPI replToken replOk now with
    | some st => (st, ⟨some st, now⟩)
    | none =>
      match checkHFSpace hfOk now with
      | some st => (st, ⟨some st, now⟩)
      | none => (unavailableStatus now, ⟨some (unavailableStatus now), now⟩)

/-! ## Gradio adapter (worker/index.ts, callGradioAPI)

The two fetches (queue join and event-stream read) are explicit booleans;
the stream body is the text the worker reads.  Parsing one data line (JSON
parse, gallery extraction and the image fetch) is a handler parameter: the
claim under test is exactly that the exhausted check precedes any use of
that handler, and that the four failure messages are pairwise distinct. -/

/-- JavaScript String.prototype.includes for a non-empty pattern: the text
splits into more than one piece at the pattern exactly when it occurs. -/
def includesSub (s pat : String) : Bool := (s.splitOn pat).length != 1

/-- Error raised when the queue-join POST is non-2xx. -/
def gradioConnectFailMsg : String := "HuggingFace Spaceへの接続に失敗しました"

/-- Error raised when the event-stream GET is non-2xx. -/
def gradioResultFailMsg : String := "結果の取得に失敗しました"

/-- Error raised when the stream carries an event: error marker (ZeroGPU
quota exhaustion). -/
def gradioExhaustedMsg : String :=
  "Qwen SpaceのZeroGPU割り当てが一時的に枯渇しています。しばらく待ってから再試行するか、Z-Image-Turboなど他のモデルをお試しください。"

/-- Error raised when the whole stream yields no usable data line. -/
def gradioNoImageMsg : String :=
  "画像の生成に失敗しました。HuggingFace SpaceのZeroGPU制限により、クラウド生成が利用できない場合があります。Z-Image-Turboなど他のモデルを選択するか、ローカルPythonサーバーの使用を検討してください。"

/-- Outcome of handling the JSON payload of one data line: skip covers a
JSON SyntaxError and a payload without a usable image reference (the loop
continues either way), found carries the normalized data URI, and raise a
propagated failure such as a non-2xx image fetch. -/
inductive DataLineOutcome
  | skip
  | found (dataUri : String)
  | raiseErr (msg : String)
deriving DecidableEq, Repr

/-- Line loop of callGradioAPI: a line is considered only when it starts
with the data marker; a literal null body is skipped; otherwise the handler
decides.  A stream exhausted without a result is the terminal no-image
failure. -/
def gradioLineLoop (handle : String → DataLineOutcome) : List String → Except String String
  | [] => .error gradioNoImageMsg
  | line :: rest =>
    if line.startsWith "data: " then
      let jsonStr := line.drop 6
      if jsonStr = "null" then gradioLineLoop handle rest
      else
        match handle jsonStr with
        | .skip => gradioLineLoop handle rest
        | .found uri => .ok uri
        | .raiseErr msg => .error msg
    else gradioLineLoop handle rest

/-- Embedding of callGradioAPI (worker/index.ts lines 748 to 875) from the
queue join onward: connection failure, stream-read failure, the event:
error check on the whole body, then the line loop. -/
def callGradioAPI (callOk streamOk : Bool) (text : String)
    (handle : String → DataLineOutcome) : Except String String :=
  if callOk = false then .error gradioConnectFailMsg
  else if streamOk = false then .error gradioResultFailMsg
  else if includesSub text "event: error" then .error gradioExhaustedMsg
  else gradioLineLoop handle (text.splitOn "\n")

/-! ## Replicate adapter (worker/index.ts, callReplicateAPI)

The embedding covers the processing of the create-prediction response
(lines 575 to 637): the synchronous-success branch, the polling loop over
urls.get, and the trailing error branches.  Poll responses are a function
of the attempt index; the image fetch is a function of the output URL.  A
run records, besides the result, how many polls were issued and how many
milliseconds the loop spent waiting (5000 before every poll). -/

/-- Output field of a prediction: a URL string or an array of URL strings. -/
inductive ReplicateOutput
  | single (s : String)
  | many (l : List String)
deriving DecidableEq, Repr

/-- JavaScript truthiness of the optional output field: absent and the
empty string are falsy, every array is truthy. -/
def outputTruthy : Option ReplicateOutput → Bool
  | none => false
  | some (.single s) => s ≠ ""
  | some (.many _) => true

/-- URL the worker fetches: the string itself, or element 0 of the array
(undefined on an empty array). -/
def firstOutputUrl : ReplicateOutput → Option String
  | .single s => some s
  | .many l => l.head?

/-- Parsed create-prediction response. -/
structure Prediction where
  status : String
  output : Option ReplicateOutput
  error : Option String
  urls : Option String
deriving DecidableEq, Repr

/-- Parsed body of one poll response. -/
structure PollData where
  status : String
  output : Option ReplicateOutput
  error : Option String
deriving DecidableEq, Repr

/-- One poll fetch: a non-2xx response, or a parsed body. -/
inductive PollResponse
  | notOk
  | okResp (d : PollData)
deriving DecidableEq, Repr

/-- Error raised when a poll fetch is non-2xx. -/
def replicatePollFailMsg : String := "Replicate APIのポーリングに失敗しました"

/-- Default error of a failed prediction without an API message. -/
def replicateGenFailMsg : String := "Replicate APIでの生成に失敗しました"

/-- Error raised when the attempt budget is exhausted. -/
def replicateTimeoutMsg : String := "Replicate APIがタイムアウトしました"

/-- Error raised on a create response that is neither terminal nor
pollable. -/
def replicateBadResponseMsg : String := "Replicate APIからの応答が不正です"

/-- Maximum number of polls (about five minutes). -/
def replicateMaxAttempts : Nat := 60

/-- Wait before every poll, in milliseconds. -/
def replicatePollIntervalMs : Nat := 5000

/-- Fetch of the output URL re-encoded as a webp data URI; fetching the
undefined URL of an empty output array throws. -/
def fetchAsWebpDataUri (fetchImg : String → List Nat) (url : Option String) :
    Except String String :=
  match url with
  | none => .error "TypeError: Failed to fetch"
  | some u => .ok ("data:image/webp;base64," ++ arrayBufferToBase64 (fetchImg u))

/-- Outcome of one iteration of the polling loop together with the trace
counters. -/
structure ReplicateRun where
  result : Except String String
  polls : Nat
  waitMs : Nat
deriving Repr

/-- Polling loop of callReplicateAPI: while attempts remain, wait 5000 ms,
fetch urls.get, then return on succeeded-with-output, raise the API error
on failed, raise on a non-2xx poll, and otherwise continue; an exhausted
budget raises the timeout error. -/
def pollReplicate (fetchImg : String → List Nat) (pollFn : Nat → PollResponse)
    (attempt : Nat) : (fuel : Nat) → ReplicateRun
  | 0 => ⟨.error replicateTimeoutMsg, 0, 0⟩
  | fuel + 1 =>
    match pollFn attempt with
    | .notOk => ⟨.error replicatePollFailMsg, 1, replicatePollIntervalMs⟩
    | .okResp d =>
      if d.status = "succeeded" ∧ outputTruthy d.output = true then
        ⟨fetchAsWebpDataUri fetchImg (d.output.bind firstOutputUrl), 1,
          replicatePollIntervalMs⟩
      else if d.status = "failed" then
        ⟨.error (d.error.getD replicateGenFailMsg), 1, replicatePollIntervalMs⟩
      else
        let r := pollReplicate fetchImg pollFn (attempt + 1) fuel
        ⟨r.result, r.polls + 1, r.waitMs + replicatePollIntervalMs⟩

/-- Embedding of the response processing of callReplicateAPI
(worker/index.ts lines 575 to 637): synchronous success, else polling when
urls.get is present, else the prediction error or the malformed-response
error. -/
def callReplicateAPI (fetchImg : String → List Nat) (pollFn : Nat → PollResponse)
    (pred : Prediction) : ReplicateRun :=
  if pred.status = "succeeded" ∧ outputTruthy pred.output = true then
    ⟨fetchAsWebpDataUri fetchImg (pred.output.bind firstOutputUrl), 0, 0⟩
  else
    match pred.urls with
    | some _ => pollReplicate fetchImg pollFn 0 replicateMaxAttempts
    | none =>
      match pred.error with
      | some e => ⟨.error e, 0, 0⟩
      | none => ⟨.error replicateBadResponseMsg, 0, 0⟩

/-- Poll response that keeps the loop going: a 2xx body that is neither
succeeded-with-truthy-output nor failed. -/
def pollPending : PollResponse → Bool
  | .notOk => false
  | .okResp d =>
    !(d.status == "succeeded" && outputTruthy d.output) && d.status != "failed"

/-! ## Model registry (the model-manager module, src/unnamed/part_003)

The KV document holds the whole registry; every operation loads it, checks
its preconditions, mutates the in-memory copy and saves.  A thrown error
leaves the stored document untouched because the save only runs at the end,
which the Except embedding reflects: an error carries no new state.
Timestamps (new Date().toISOString()) are passed in as strings. -/

/-- ModelConfig record of worker/types.ts. -/
structure ModelConfig where
  id : String
  name : String
  «type» : String
  source : String
  description : String
  backends : List String
  isDefault : Bool
  enabled : Bool
  createdAt : String
  updatedAt : Option String
deriving DecidableEq, Repr

/-- ModelSettings record of worker/types.ts. -/
structure ModelSettings where
  activeModelId : String
  fallbackToCloud : Bool
deriving DecidableEq, Repr

/-- ModelsData document stored under the models KV key. -/
structure ModelsData where
  models : List ModelConfig
  settings : ModelSettings
deriving DecidableEq, Repr

/-- Fields of a model to add (id and createdAt are generated). -/
structure NewModel where
  name : String
  «type» : String
  source : String
  description : String
  backends : List String
  isDefault : Bool
  enabled : Bool
deriving DecidableEq, Repr

/-- Partial update accepted by updateModel. -/
structure ModelUpdates where
  name : Option String
  «type» : Option String
  source : Option String
  description : Option String
  backends : Option (List String)
  isDefault : Option Bool
  enabled : Option Bool
deriving DecidableEq, Repr

/-- Error raised by addModel on a duplicate generated id. -/
def duplicateModelMsg : String := "同じ名前のモデルが既に存在します"

/-- Error raised when the named model does not exist. -/
def modelNotFoundMsg : String := "モデルが見つかりません"

/-- Error raised by deleteModel on the active model. -/
def activeModelDeleteMsg : String := "アクティブなモデルは削除できません"

/-- Character class the slug keeps after lowering: a-z and 0-9. -/
def isSlugChar (c : Char) : Bool := ('a' ≤ c ∧ c ≤ 'z') ∨ ('0' ≤ c ∧ c ≤ '9')

/-- Replacement of every maximal run of non-slug characters by one hyphen;
the flag records whether the previous character sat in such a run. -/
def collapseRuns : Bool → List Char → List Char
  | _, [] => []
  | inRun, c :: rest =>
    if isSlugChar c then c :: collapseRuns false rest
    else if inRun then collapseRuns true rest
    else '-' :: collapseRuns true rest

/-- Removal of one leading hyphen. -/
def stripLeadHyphen : List Char → List Char
  | '-' :: rest => rest
  | l => l

/-- Embedding of generateModelId (model-manager lines 339 to 344):
lower-case the name, collapse non-alphanumeric runs to hyphens, strip one
leading and one trailing hyphen. -/
def generateModelId (name : String) : String :=
  String.mk
    ((stripLeadHyphen ((stripLeadHyphen (collapseRuns false name.toLower.toList)).reverse)).reverse)

/-- Clearing of the default flag on every model, the forEach both addModel
and updateModel run before installing a new default. -/
def clearDefaults (models : List ModelConfig) : List ModelConfig :=
  models.map fun m => { m with isDefault := false }

/-- Embedding of addModel (model-manager lines 235 to 261): generate the
id, reject a duplicate, clear every default flag when the new model is the
default, append the new model and save. -/
def addModel (d : ModelsData) (model : NewModel) (nowIso : String) :
    Except String (ModelsData × ModelConfig) :=
  let id := generateModelId model.name
  if d.models.any (fun m => m.id == id) then .error duplicateModelMsg
  else
    let newModel : ModelConfig :=
      { id := id, name := model.name, «type» := model.«type»
        source := model.source, description := model.description
        backends := model.backends, isDefault := model.isDefault
        enabled := model.enabled, createdAt := nowIso, updatedAt := none }
    let models1 := if newModel.isDefault then clearDefaults d.models else d.models
    .ok ({ d with models := models1 ++ [newModel] }, newModel)

/-- Replacement of the element at an index by the image of a function, the
assignment config.models[index] = merged. -/
def setAt (l : List ModelConfig) (index : Nat) (f : ModelConfig → ModelConfig) :
    List ModelConfig :=
  match l, index with
  | [], _ => []
  | x :: rest, 0 => f x :: rest
  | x :: rest, i + 1 => x :: setAt rest i f

/-- Merge of a partial update into a model, stamping updatedAt, the spread
of updates over the stored element. -/
def applyUpdates (m : ModelConfig) (u : ModelUpdates) (nowIso : String) : ModelConfig :=
  { m with
    name := u.name.getD m.name
    «type» := u.«type».getD m.«type»
    source := u.source.getD m.source
    description := u.description.getD m.description
    backends := u.backends.getD m.backends
    isDefault := u.isDefault.getD m.isDefault
    enabled := u.enabled.getD m.enabled
    updatedAt := some nowIso }

/-- Embedding of updateModel (model-manager lines 263 to 288): locate the
model, clear every default flag when the update makes it the default (the
truthy check means the value some true), merge the update into the element
at the found index and save, returning the merged model. -/
def updateModel (d : ModelsData) (id : String) (u : ModelUpdates) (nowIso : String) :
    Except String (ModelsData × ModelConfig) :=
  match d.models.findIdx? (fun m => m.id == id) with
  | none => .error modelNotFoundMsg
  | some index =>
    let models1 := if u.isDefault = some true then clearDefaults d.models else d.models
    match models1[index]? with
    | none => .error modelNotFoundMsg
    | some cur =>
      let upd := applyUpdates cur u nowIso
      .ok ({ d with models := setAt models1 index fun _ => upd }, upd)

/-- Embedding of deleteModel (model-manager lines 291 to 305): locate the
model, reject the active one, splice it out and save. -/
def deleteModel (d : ModelsData) (id : String) : Except String ModelsData :=
  match d.models.findIdx? (fun m => m.id == id) with
  | none => .error modelNotFoundMsg
  | some index =>
    if d.settings.activeModelId == id then .error activeModelDeleteMsg
    else .ok { d with models := d.models.eraseIdx index }

/-- Embedding of getSettings (model-manager lines 308 to 311). -/
def getSettings (d : ModelsData) : ModelSettings := d.settings

/-- Embedding of getModel (model-manager lines 229 to 232). -/
def getModel (d : ModelsData) (id : String) : Option ModelConfig :=
  d.models.find? fun m => m.id == id

/-- Stored-state view of deleteModel: on success the saved document is the
new one, on a thrown error the stored document stays as it was. -/
def runDeleteModel (store : ModelsData) (id : String) : ModelsData × Except String Unit :=
  match deleteModel store id with
  | .ok d2 => (d2, .ok ())
  | .error e => (store, .error e)

/-- One registry mutation through the admin CRUD operations. -/
inductive RegistryStep : ModelsData → ModelsData → Prop
  | add {d d2 : ModelsData} (model : NewModel) (nowIso : String) (m : ModelConfig) :
      addModel d model nowIso = .ok (d2, m) → RegistryStep d d2
  | update {d d2 : ModelsData} (id : String) (u : ModelUpdates) (nowIso : String)
      (m : ModelConfig) :
      updateModel d id u nowIso = .ok (d2, m) → RegistryStep d d2
  | del {d d2 : ModelsData} (id : String) :
      deleteModel d id = .ok d2 → RegistryStep d d2

/-- Number of models flagged as the default. -/
def countDefaults (d : ModelsData) : Nat := d.models.countP fun m => m.isDefault

/-- Public shape returned by GET /api/models. -/
structure PublicModel where
  id : String
  name : String
  description : String
  «type» : String
  isDefault : Bool
deriving DecidableEq, Repr

/-- View of one stored model as the public endpoint reports it: the
isDefault field is recomputed against the active model id, the stored flag
is not consulted. -/
def publicView (activeModelId : String) (m : ModelConfig) : PublicModel :=
  { id := m.id, name := m.name, description := m.description
    «type» := m.«type», isDefault := m.id == activeModelId }

/-- Embedding of the GET /api/models handler (worker/index.ts lines 247 to
265): the enabled models, each viewed against settings.activeModelId. -/
def apiModels (d : ModelsData) : List PublicModel :=
  (d.models.filter fun m => m.enabled).map (publicView (getSettings d).activeModelId)

/-! ## Generation dispatch (worker/index.ts, the /api/generate handler)

The multipart form is a record of optional fields, exactly those the
handler reads plus the mode field the front end sends and the handler never
reads.  JavaScript || on strings treats null and the empty string as falsy,
modelled by jsOrStr.  The effective backend status (after the refresh the
handler performs when the cache is empty or unavailable) is a parameter;
the dispatch decision names which adapter would be invoked, or the
rejection that precedes every adapter call. -/

/-- JavaScript a || b on nullable strings: null and the empty string fall
through to b. -/
def jsOrStr : Option String → Option String → Option String
  | some s, b => if s = "" then b else some s
  | none, b => b

/-- One uploaded image part. -/
structure GenFile where
  mimeType : String
  bytes : List Nat
deriving DecidableEq, Repr

/-- Fields of the /api/generate multipart form. -/
structure GenForm where
  prompt : Option String
  negative_prompt : Option String
  mode : Option String
  image1 : Option GenFile
  image2 : Option GenFile
  aspect_ratio : Option String
  resolution : Option String
  modelId : Option String
  model_id : Option String
deriving DecidableEq, Repr

/-- Error raised on a missing or empty prompt. -/
def promptRequiredMsg : String := "プロンプトは必須です"

/-- Error raised when no backend is reachable. -/
def backendUnavailableMsg : String := "バックエンドが利用できません。"

/-- Error raised in the Replicate branch when no image is attached. -/
def qwenNeedsImageMsg : String :=
  "Qwen-Image-Editは画像編集モデルです。編集する画像をアップロードしてください。"

/-- Default HuggingFace Space URL of the worker. -/
def DEFAULT_HF_SPACE_URL : String := "https://qwen-qwen-image-edit-2511.hf.space"

/-- Decision the handler reaches before any adapter work: a 400 or 503
rejection, or the adapter it invokes. -/
inductive Dispatch
  | reject400 (msg : String)
  | reject503 (msg : String)
  | bagelEdit
  | bagelTextToImage
  | zImage
  | flux2
  | localAdapter
  | gradio (spaceUrl : String)
  | stableDiffusionHF
  | replicateAdapter
deriving DecidableEq, Repr

/-- Rejections carrying a 400 status. -/
def isValidationReject : Dispatch → Bool
  | .reject400 _ => true
  | _ => false

/-- Decisions that invoke an adapter. -/
def isAdapterCall : Dispatch → Bool
  | .reject400 _ => false
  | .reject503 _ => false
  | _ => true

/-- Embedding of the dispatch logic of the /api/generate handler
(worker/index.ts lines 306 to 453): prompt presence check, model lookup,
special-cased model families, then the health-dependent branch.  The
registry and the effective backend status are parameters; envHfSpaceUrl is
the HF_SPACE_URL environment variable. -/
def generateDispatch (form : GenForm) (registry : ModelsData)
    (status : BackendStatus) (envHfSpaceUrl : Option String) : Dispatch :=
  match jsOrStr form.prompt none with
  | none => .reject400 promptRequiredMsg
  | some _ =>
    let modelId := jsOrStr form.modelId form.model_id
    let selectedModel :=
      match modelId with
      | some mid =>
        match getModel registry mid with
        | some m => if m.enabled then some m else none
        | none => none
      | none => none
    let activeModelId :=
      (jsOrStr (selectedModel.map fun m => m.id)
        (jsOrStr modelId (some "qwen-image-edit"))).getD "qwen-image-edit"
    if activeModelId = "bagel-7b-mot" then
      match form.image1 with
      | some _ => .bagelEdit
      | none => .bagelTextToImage
    else if activeModelId = "z-image-turbo" then .zImage
    else if activeModelId = "flux2-dev" then .flux2
    else if status.mode = .unavailable then .reject503 backendUnavailableMsg
    else if status.mode = .localMode then .localAdapter
    else
      let modelType :=
        (jsOrStr (selectedModel.map fun m => m.«type») (some "diffusers")).getD "diffusers"
      if modelType = "cloud" ∨ activeModelId = "huggingface-cloud" then
        .gradio ((jsOrStr (selectedModel.map fun m => m.source)
          (jsOrStr envHfSpaceUrl (some DEFAULT_HF_SPACE_URL))).getD DEFAULT_HF_SPACE_URL)
      else if status.backend = "replicate" then
        if activeModelId = "stable-diffusion-v1-5" then .stableDiffusionHF
        else if form.image1 = none ∧ form.image2 = none then
          .reject400 qwenNeedsImageMsg
        else .replicateAdapter
      else
        .gradio ((jsOrStr envHfSpaceUrl (some DEFAULT_HF_SPACE_URL)).getD DEFAULT_HF_SPACE_URL)

/-- Default registry document of the model-manager module; the run-time
creation timestamps are modelled as empty strings. -/
def defaultConfig : ModelsData :=
  { models :=
      [ { id := "qwen-image-edit", name := "Qwen-Image-Edit-2511"
          «type» := "diffusers", source := "Qwen/Qwen-Image-Edit-2511"
          description := "Qwenの画像編集モデル（CUDA対応）"
          backends := ["cuda", "cpu"], isDefault := false, enabled := true
          createdAt := "", updatedAt := none }
      , { id := "stable-diffusion-v1-5", name := "Stable Diffusion 1.5"
          «type» := "onnx", source := "runwayml/stable-diffusion-v1-5"
          description := "Stable Diffusion 1.5（DirectML対応）"
          backends := ["directml", "cuda", "cpu"], isDefault := false, enabled := true
          createdAt := "", updatedAt := none }
      , { id := "huggingface-cloud", name := "Qwen-Image-Edit (Cloud)"
          «type» := "cloud", source := "https://qwen-qwen-image-edit-2511.hf.space"
          description := "Qwen画像編集モデル（HuggingFace Spaces）"
          backends := ["cloud"], isDefault := true, enabled := true
          createdAt := "", updatedAt := none }
      , { id := "bagel-7b-mot", name := "BAGEL-7B-MoT"
          «type» := "cloud", source := "https://bytedance-seed-bagel.hf.space"
          description := "ByteDance BAGEL - 統合マルチモーダルモデル（画像生成・編集・理解、CUDA対応）"
          backends := ["cuda", "cloud"], isDefault := false, enabled := true
          createdAt := "", updatedAt := none }
      , { id := "z-image-turbo", name := "Z-Image-Turbo"
          «type» := "cloud", source := "https://tongyi-mai-z-image-turbo.hf.space"
          description := "Tongyi 高速・高品質テキストから画像生成（16GB VRAM、CUDA対応）"
          backends := ["cuda", "cloud"], isDefault := false, enabled := true
          createdAt := "", updatedAt := none }
      , { id := "flux2-dev", name := "FLUX.2 [dev]"
          «type» := "cloud", source := "https://black-forest-labs-flux-2-dev.hf.space"
          description := "Black Forest Labs FLUX.2 - 32B最先端画像生成・編集モデル（CUDA対応）"
          backends := ["cuda", "cloud"], isDefault := false, enabled := true
          createdAt := "", updatedAt := none }
      ]
    settings := { activeModelId := "huggingface-cloud", fallbackToCloud := true } }

/-! ## Theorems -/

/-- C4: for each of the seven supported aspect-ratio keys and any positive
baseSize, calculateDimensions returns integer sides whose longer side is
exactly baseSize and whose shorter side is baseSize times the smaller ratio
over the larger, rounded half up; any key outside the table behaves as the
key 1:1. -/
theorem claim_C4_dimensions : ∀ (key : String) (b : Nat),
    (0 < b → key ∈ supportedAspectKeys →
      max (calculateDimensions key b).1 (calculateDimensions key b).2 = b ∧
      min (calculateDimensions key b).1 (calculateDimensions key b).2 =
        mathRound (b * min (ratioTable key).1 (ratioTable key).2)
          (max (ratioTable key).1 (ratioTable key).2)) ∧
    (key ∉ supportedAspectKeys →
      calculateDimensions key b = calculateDimensions "1:1" b) := by
  intro key b
  constructor
  · intro _ hmem
    simp only [supportedAspectKeys, List.mem_cons, List.not_mem_nil, or_false] at hmem
    rcases hmem with rfl | rfl | rfl | rfl | rfl | rfl | rfl
    · refine ⟨?_, ?_⟩
      · show max b (mathRound (b * 1) 1) = b
        simp only [mathRound]
        omega
      · show min b (mathRound (b * 1) 1) = mathRound (b * 1) 1
        simp only [mathRound]
        omega
    · refine ⟨?_, ?_⟩
      · show max b (mathRound (b * 9) 16) = b
        simp only [mathRound]
        omega
      · show min b (mathRound (b * 9) 16) = mathRound (b * 9) 16
        simp only [mathRound]
        omega
    · refine ⟨?_, ?_⟩
      · show max (mathRound (b * 9) 16) b = b
        simp only [mathRound]
        omega
      · show min (mathRound (b * 9) 16) b = mathRound (b * 9) 16
        simp only [mathRound]
        omega
    · refine ⟨?_, ?_⟩
      · show max b (mathRound (b * 3) 4) = b
        simp only [mathRound]
        omega
      · show min b (mathRound (b * 3) 4) = mathRound (b * 3) 4
        simp only [mathRound]
        omega
    · refine ⟨?_, ?_⟩
      · show max (mathRound (b * 3) 4) b = b
        simp only [mathRound]
        omega
      · show min (mathRound (b * 3) 4) b = mathRound (b * 3) 4
        simp only [mathRound]
        omega
    · refine ⟨?_, ?_⟩
      · show max b (mathRound (b * 2) 3) = b
        simp only [mathRound]
        omega
      · show min b (mathRound (b * 2) 3) = mathRound (b * 2) 3
        simp only [mathRound]
        omega
    · refine ⟨?_, ?_⟩
      · show max (mathRound (b * 2) 3) b = b
        simp only [mathRound]
        omega
      · show min (mathRound (b * 2) 3) b = mathRound (b * 2) 3
        simp only [mathRound]
        omega
  · intro h
    simp only [supportedAspectKeys, List.mem_cons, List.not_mem_nil, or_false, not_or] at h
    obtain ⟨h1, h2, h3, h4, h5, h6, h7⟩ := h
    simp only [calculateDimensions, ratioTable, h1, h2, h3, h4, h5, h6, h7, if_false,
      if_true, reduceIte]

/-- C6: the translation pre-pass never blocks generation: a thrown fetch, a
non-2xx response or an unparsable body each return the original prompt
unchanged, and a translated prompt is returned only for a parsed payload
with responseStatus 200 and a non-empty translated text. -/
theorem claim_C6_translation : ∀ (text : String) (outcome : TranslateFetchOutcome),
    (translateToEnglish text .threw = text) ∧
    (∀ s, translateToEnglish text (.notOk s) = text) ∧
    (translateToEnglish text (.okResp none) = text) ∧
    (translateToEnglish text outcome = text ∨
      ∃ d t, outcome = .okResp (some d) ∧ d.responseStatus = 200 ∧
        d.translatedText = some t ∧ t ≠ "" ∧ translateToEnglish text outcome = t) := by
  intro text outcome
  refine ⟨rfl, fun _ => rfl, rfl, ?_⟩
  match outcome with
  | .threw => exact .inl rfl
  | .notOk _ => exact .inl rfl
  | .okResp none => exact .inl rfl
  | .okResp (some d) =>
    by_cases hs : d.responseStatus = 200
    · match ht : d.translatedText with
      | none => left; simp [translateToEnglish, hs, ht]
      | some t =>
        by_cases he : t = ""
        · left; simp [translateToEnglish, hs, ht, he]
        · right; exact ⟨d, t, rfl, hs, ht, he, by simp [translateToEnglish, hs, ht, he]⟩
    · left; simp [translateToEnglish, hs]

/-- C2: a Gradio stream body containing an event: error marker makes the
adapter raise the backend-exhausted error, independently of how any data
line would be handled (the marker check precedes the line loop), and that
error is distinct from the connection-failure, stream-read-failure and
no-valid-data errors. -/
theorem claim_C2_gradio_exhausted : ∀ (text : String) (handle : String → DataLineOutcome),
    (includesSub text "event: error" = true →
      callGradioAPI true true text handle = .error gradioExhaustedMsg) ∧
    (∀ handle2, includesSub text "event: error" = true →
      callGradioAPI true true text handle2 = callGradioAPI true true text handle) ∧
    (gradioExhaustedMsg ≠ gradioConnectFailMsg ∧ gradioExhaustedMsg ≠ gradioResultFailMsg ∧
      gradioExhaustedMsg ≠ gradioNoImageMsg) ∧
    (∀ streamOk, callGradioAPI false streamOk text handle = .error gradioConnectFailMsg) ∧
    (callGradioAPI true false text handle = .error gradioResultFailMsg) := by
  intro text handle
  refine ⟨?_, ?_, ⟨by decide, by decide, by decide⟩, fun streamOk => rfl, rfl⟩
  · intro h
    simp [callGradioAPI, h]
  · intro handle2 h
    simp [callGradioAPI, h]

/-- Helper: the public view of the enabled models is unchanged when the
stored default flags are rewritten, because the view recomputes isDefault
from the active model id and the enabled filter ignores the flag. -/
theorem apiModels_flag_blind (active : String) (f : ModelConfig → Bool)
    (ms : List ModelConfig) :
    ((ms.map fun m => { m with isDefault := f m }).filter (fun m => m.enabled)).map
        (publicView active) =
      (ms.filter fun m => m.enabled).map (publicView active) := by
  induction ms with
  | nil => rfl
  | cons m rest ih =>
    simp only [List.map_cons, List.filter_cons]
    cases he : m.enabled <;> simp [he, ih, publicView]

/-- C10: GET /api/models returns exactly the enabled models, reports
isDefault as identity of the model id with settings.activeModelId, and
ignores the stored per-model isDefault flag entirely. -/
theorem claim_C10_public_models : ∀ (d : ModelsData),
    (∀ p : PublicModel, p ∈ apiModels d ↔
      ∃ m, m ∈ d.models ∧ m.enabled = true ∧ p = publicView d.settings.activeModelId m) ∧
    (∀ p, p ∈ apiModels d → p.isDefault = (p.id == d.settings.activeModelId)) ∧
    (∀ f : ModelConfig → Bool,
      apiModels { d with models := d.models.map fun m => { m with isDefault := f m } }
        = apiModels d) := by
  intro d
  have hmem : ∀ p : PublicModel, p ∈ apiModels d ↔
      ∃ m, m ∈ d.models ∧ m.enabled = true ∧ p = publicView d.settings.activeModelId m := by
    intro p
    simp only [apiModels, getSettings, List.mem_map, List.mem_filter]
    constructor
    · rintro ⟨m, ⟨hm, he⟩, hview⟩
      exact ⟨m, hm, he, hview.symm⟩
    · rintro ⟨m, hm, he, hview⟩
      exact ⟨m, ⟨hm, he⟩, hview.symm⟩
  refine ⟨hmem, ?_, ?_⟩
  · intro p hp
    obtain ⟨m, -, -, hview⟩ := (hmem p).mp hp
    subst hview
    rfl
  · intro f
    simpa [apiModels, getSettings] using
      apiModels_flag_blind d.settings.activeModelId f d.models

/-- Helper: a successful local probe reports mode local. -/
theorem checkLocalServer_mode (resp : Option LocalHealth) (now : Nat)
    (st : BackendStatus) (h : checkLocalServer resp now = some st) :
    st.mode = .localMode := by
  cases resp with
  | none => exact absurd h (by simp [checkLocalServer])
  | some d =>
    simp only [checkLocalServer, Option.some.injEq] at h
    subst h
    rfl

/-- Helper: a successful Replicate probe reports cloud mode and the
replicate backend label. -/
theorem checkReplicateAPI_fields (tok : Option String) (ok : Bool) (now : Nat)
    (st : BackendStatus) (h : checkReplicateAPI tok ok now = some st) :
    st.mode = .cloud ∧ st.backend = "replicate" := by
  cases tok with
  | none => exact absurd h (by simp [checkReplicateAPI])
  | some t =>
    cases ok with
    | false => exact absurd h (by simp [checkReplicateAPI])
    | true =>
      simp only [checkReplicateAPI, if_true, Option.some.injEq, reduceIte] at h
      subst h
      exact ⟨rfl, rfl⟩

/-- Helper: a successful Space probe reports cloud mode and the huggingface
backend label. -/
theorem checkHFSpace_fields (ok : Bool) (now : Nat)
    (st : BackendStatus) (h : checkHFSpace ok now = some st) :
    st.mode = .cloud ∧ st.backend = "huggingface" := by
  cases ok with
  | false => exact absurd h (by simp [checkHFSpace])
  | true =>
    simp only [checkHFSpace, if_true, Option.some.injEq, reduceIte] at h
    subst h
    exact ⟨rfl, rfl⟩

/-- C5: the health probe tries local /health (3s timeout), then the
Replicate model-metadata endpoint with a bearer token (5s timeout), then
the public Space /config (5s timeout); the first success is returned and
fully replaces the cache (local mode for the first probe, cloud/replicate
for the second, cloud/huggingface for the third), and the result is
unavailable exactly when all three probes fail. -/
theorem claim_C5_probe_order : ∀ (localResp : Option LocalHealth)
    (replToken : Option String) (replOk hfOk : Bool) (now : Nat) (cache : BackendCache),
    ((initBackend localResp replToken replOk hfOk now cache).2
        = ⟨some (initBackend localResp replToken replOk hfOk now cache).1, now⟩) ∧
    (∀ st, checkLocalServer localResp now = some st →
      (initBackend localResp replToken replOk hfOk now cache).1 = st ∧
        st.mode = .localMode) ∧
    (checkLocalServer localResp now = none →
      ∀ st, checkReplicateAPI replToken replOk now = some st →
      (initBackend localResp replToken replOk hfOk now cache).1 = st ∧
        st.mode = .cloud ∧ st.backend = "replicate") ∧
    (checkLocalServer localResp now = none →
      checkReplicateAPI replToken replOk now = none →
      ∀ st, checkHFSpace hfOk now = some st →
      (initBackend localResp replToken replOk hfOk now cache).1 = st ∧
        st.mode = .cloud ∧ st.backend = "huggingface") ∧
    ((initBackend localResp replToken replOk hfOk now cache).1.mode = .unavailable ↔
      (checkLocalServer localResp now = none ∧ checkReplicateAPI replToken replOk now = none ∧
        checkHFSpace hfOk now = none)) ∧
    (localProbeTimeoutMs = 3000 ∧ localProbePath = "/health" ∧
      replicateProbeTimeoutMs = 5000 ∧ hfProbeTimeoutMs = 5000 ∧ hfProbePath = "/config" ∧
      replicateProbeUrl = "https://api.replicate.com/v1/models/qwen/qwen-image-edit-2511" ∧
      ∀ t, replicateAuthHeader t = "Bearer " ++ t) := by
  intro localResp replToken replOk hfOk now cache
  cases hL : checkLocalServer localResp now with
  | some stL =>
    refine ⟨by simp [initBackend, hL], ?_, ?_, ?_, ?_, rfl, rfl,
      rfl, rfl, rfl, rfl, fun t => rfl⟩
    · intro st hst
      injection hst with h
      subst h
      exact ⟨by simp [initBackend, hL], checkLocalServer_mode localResp now stL hL⟩
    · intro hnone
      exact Option.noConfusion hnone
    · intro hnone
      exact Option.noConfusion hnone
    · constructor
      · intro hmode
        have hm := checkLocalServer_mode localResp now stL hL
        simp [initBackend, hL, hm] at hmode
      · rintro ⟨hnone, -⟩
        exact Option.noConfusion hnone
  | none =>
    cases hR : checkReplicateAPI replToken replOk now with
    | some stR =>
      refine ⟨by simp [initBackend, hL, hR], ?_, ?_, ?_, ?_, rfl, rfl,
        rfl, rfl, rfl, rfl, fun t => rfl⟩
      · intro st hst
        exact Option.noConfusion hst
      · intro _ st hst
        injection hst with h
        subst h
        obtain ⟨hm, hb⟩ := checkReplicateAPI_fields replToken replOk now stR hR
        exact ⟨by simp [initBackend, hL, hR], hm, hb⟩
      · intro _ hnone
        exact Option.noConfusion hnone
      · constructor
        · intro hmode
          obtain ⟨hm, -⟩ := checkReplicateAPI_fields replToken replOk now stR hR
          simp [initBackend, hL, hR, hm] at hmode
        · rintro ⟨-, hnone, -⟩
          exact Option.noConfusion hnone
    | none =>
      cases hH : checkHFSpace hfOk now with
      | some stH =>
        refine ⟨by simp [initBackend, hL, hR, hH], ?_, ?_, ?_, ?_, rfl, rfl,
          rfl, rfl, rfl, rfl, fun t => rfl⟩
        · intro st hst
          exact Option.noConfusion hst
        · intro _ st hst
          exact Option.noConfusion hst
        · intro _ _ st hst
          injection hst with h
          subst h
          obtain ⟨hm, hb⟩ := checkHFSpace_fields hfOk now stH hH
          exact ⟨by simp [initBackend, hL, hR, hH], hm, hb⟩
        · constructor
          · intro hmode
            obtain ⟨hm, -⟩ := checkHFSpace_fields hfOk now stH hH
            simp [initBackend, hL, hR, hH, hm] at hmode
          · rintro ⟨-, -, hnone⟩
            exact Option.noConfusion hnone
      | none =>
        refine ⟨by simp [initBackend, hL, hR, hH], ?_, ?_, ?_, ?_, rfl, rfl,
          rfl, rfl, rfl, rfl, fun t => rfl⟩
        · intro st hst
          exact Option.noConfusion hst
        · intro _ st hst
          exact Option.noConfusion hst
        · intro _ _ st hst
          exact Option.noConfusion hst
        · simp [initBackend, hL, hR, hH, unavailableStatus]

/-- Helper: the chunked binary-string construction reproduces the byte
list, whatever its length. -/
theorem buildBinary_eq (bytes : List Nat) : buildBinary bytes = bytes := by
  induction bytes using buildBinary.induct with
  | case1 => rw [buildBinary]; simp
  | case2 bytes h ih => rw [buildBinary, if_neg h, ih, List.take_append_drop]

/-- Helper: decoding inverts the base64 alphabet on every sextet. -/
theorem charSextet_sextetChar_fin :
    ∀ n : Fin 64, charSextet (sextetChar n.val) = some n.val := by decide

/-- Helper: Nat form of the alphabet inversion. -/
theorem charSextet_sextetChar (n : Nat) (h : n < 64) :
    charSextet (sextetChar n) = some n :=
  charSextet_sextetChar_fin ⟨n, h⟩

/-- Helper: no alphabet character is the padding character. -/
theorem sextetChar_ne_pad_fin : ∀ n : Fin 64, sextetChar n.val ≠ '=' := by decide

/-- Helper: Nat form of the padding separation. -/
theorem sextetChar_ne_pad (n : Nat) (h : n < 64) : sextetChar n ≠ '=' :=
  sextetChar_ne_pad_fin ⟨n, h⟩

/-- Helper: group decoding inverts group encoding on byte lists. -/
theorem decodeGroups_encodeGroups (bytes : List Nat) (h : ∀ b ∈ bytes, b < 256) :
    decodeGroups (encodeGroups bytes) = some bytes := by
  induction bytes using encodeGroups.induct with
  | case1 => rfl
  | case2 b1 =>
    have hb1 : b1 < 256 := h b1 (by simp)
    have h1 : charSextet (sextetChar (b1 / 4)) = some (b1 / 4) :=
      charSextet_sextetChar _ (by omega)
    have h2 : charSextet (sextetChar (b1 % 4 * 16)) = some (b1 % 4 * 16) :=
      charSextet_sextetChar _ (by omega)
    simp only [encodeGroups, decodeGroups, decodeQuad, h1, h2, if_pos, reduceIte,
      Option.some.injEq, List.append_nil, List.cons.injEq, and_true]
    omega
  | case3 b1 b2 =>
    have hb1 : b1 < 256 := h b1 (by simp)
    have hb2 : b2 < 256 := h b2 (by simp)
    have h1 : charSextet (sextetChar (b1 / 4)) = some (b1 / 4) :=
      charSextet_sextetChar _ (by omega)
    have h2 : charSextet (sextetChar (b1 % 4 * 16 + b2 / 16)) = some (b1 % 4 * 16 + b2 / 16) :=
      charSextet_sextetChar _ (by omega)
    have h3 : charSextet (sextetChar (b2 % 16 * 4)) = some (b2 % 16 * 4) :=
      charSextet_sextetChar _ (by omega)
    have hne3 : ¬(sextetChar (b2 % 16 * 4) = '=') := sextetChar_ne_pad _ (by omega)
    simp only [encodeGroups, decodeGroups, decodeQuad, h1, h2, h3, hne3, if_false, reduceIte,
      Option.some.injEq, List.append_nil, List.cons.injEq, and_true]
    omega
  | case4 b1 b2 b3 rest ih =>
    have hb1 : b1 < 256 := h b1 (by simp)
    have hb2 : b2 < 256 := h b2 (by simp)
    have hb3 : b3 < 256 := h b3 (by simp)
    have hrest : ∀ b ∈ rest, b < 256 := fun b hb => h b (by simp [hb])
    have h1 : charSextet (sextetChar (b1 / 4)) = some (b1 / 4) :=
      charSextet_sextetChar _ (by omega)
    have h2 : charSextet (sextetChar (b1 % 4 * 16 + b2 / 16)) = some (b1 % 4 * 16 + b2 / 16) :=
      charSextet_sextetChar _ (by omega)
    have h3 : charSextet (sextetChar (b2 % 16 * 4 + b3 / 64)) = some (b2 % 16 * 4 + b3 / 64) :=
      charSextet_sextetChar _ (by omega)
    have h4 : charSextet (sextetChar (b3 % 64)) = some (b3 % 64) :=
      charSextet_sextetChar _ (by omega)
    have hne3 : ¬(sextetChar (b2 % 16 * 4 + b3 / 64) = '=') := sextetChar_ne_pad _ (by omega)
    have hne4 : ¬(sextetChar (b3 % 64) = '=') := sextetChar_ne_pad _ (by omega)
    simp only [encodeGroups, decodeGroups, decodeQuad, h1, h2, h3, h4, hne3, hne4,
      if_false, reduceIte, ih hrest, Option.some.injEq, List.cons_append, List.nil_append,
      List.cons.injEq]
    exact ⟨by omega, by omega, by omega, trivial⟩

/-- C7: encoding any byte buffer with the chunked 32KB base64 encoder and
decoding the result reproduces the buffer exactly; the chunked
binary-string construction is the identity on the byte list for every
length, in particular across the 32768-byte chunk boundary. -/
theorem claim_C7_base64_roundtrip : ∀ (bytes : List Nat),
    ((∀ b ∈ bytes, b < 256) → atob (arrayBufferToBase64 bytes) = some bytes) ∧
    (buildBinary bytes = bytes ∧ chunkSize = 32768) := by
  intro bytes
  refine ⟨?_, buildBinary_eq bytes, rfl⟩
  intro h
  show decodeGroups (String.mk (encodeGroups (buildBinary bytes))).toList = some bytes
  rw [buildBinary_eq]
  exact decodeGroups_encodeGroups bytes h

/-- Helper: a pending poll body satisfies neither terminal condition. -/
theorem pollPending_conditions (d : PollData)
    (hp : pollPending (.okResp d) = true) :
    ¬(d.status = "succeeded" ∧ outputTruthy d.output = true) ∧ ¬(d.status = "failed") := by
  simp only [pollPending, Bool.and_eq_true, Bool.not_eq_eq_eq_not, Bool.not_true,
    bne_iff_ne, ne_eq] at hp
  constructor
  · rintro ⟨ha, hb⟩
    have := hp.1
    simp [ha, hb] at this
  · exact hp.2

/-- Helper: after a prefix of pending polls, a succeeded poll with a truthy
output ends the loop with the fetched data URI, having issued one poll per
attempt and waited the interval before each. -/
theorem pollReplicate_succeeds (fetchImg : String → List Nat)
    (pollFn : Nat → PollResponse) :
    ∀ (k : Nat) (fuel attempt : Nat) (d : PollData), k < fuel →
    (∀ j, j < k → pollPending (pollFn (attempt + j)) = true) →
    pollFn (attempt + k) = .okResp d →
    d.status = "succeeded" → outputTruthy d.output = true →
    pollReplicate fetchImg pollFn attempt fuel =
      ⟨fetchAsWebpDataUri fetchImg (d.output.bind firstOutputUrl), k + 1,
        (k + 1) * replicatePollIntervalMs⟩ := by
  intro k
  induction k with
  | zero =>
    intro fuel attempt d hk hpre hpoll hs ht
    match fuel, hk with
    | f + 1, _ =>
      rw [Nat.add_zero] at hpoll
      simp only [pollReplicate, hpoll]
      rw [if_pos ⟨hs, ht⟩]
      simp
  | succ k ih =>
    intro fuel attempt d hk hpre hpoll hs ht
    match fuel, hk with
    | f + 1, _ =>
      have hp0 : pollPending (pollFn attempt) = true := by
        have h0 := hpre 0 (by omega)
        simpa using h0
      cases hpoll0 : pollFn attempt with
      | notOk => rw [hpoll0] at hp0; simp [pollPending] at hp0
      | okResp d0 =>
        rw [hpoll0] at hp0
        obtain ⟨hc1, hc2⟩ := pollPending_conditions d0 hp0
        have hrec := ih f (attempt + 1) d (by omega)
          (fun j hj => by
            have hx := hpre (j + 1) (by omega)
            have harr : attempt + (j + 1) = attempt + 1 + j := by omega
            rwa [harr] at hx)
          (by rw [← hpoll]; congr 1; omega) hs ht
        simp only [pollReplicate, hpoll0]
        rw [if_neg hc1, if_neg hc2, hrec]
        refine congrArg₂ _ rfl ?_
        simp [Nat.succ_mul]

/-- Helper: after a prefix of pending polls, a failed poll raises the
API-supplied error (or the default) after one poll per attempt. -/
theorem pollReplicate_fails (fetchImg : String → List Nat)
    (pollFn : Nat → PollResponse) :
    ∀ (k : Nat) (fuel attempt : Nat) (d : PollData), k < fuel →
    (∀ j, j < k → pollPending (pollFn (attempt + j)) = true) →
    pollFn (attempt + k) = .okResp d →
    d.status = "failed" →
    pollReplicate fetchImg pollFn attempt fuel =
      ⟨.error (d.error.getD replicateGenFailMsg), k + 1,
        (k + 1) * replicatePollIntervalMs⟩ := by
  intro k
  induction k with
  | zero =>
    intro fuel attempt d hk hpre hpoll hs
    match fuel, hk with
    | f + 1, _ =>
      rw [Nat.add_zero] at hpoll
      have hc1 : ¬(d.status = "succeeded" ∧ outputTruthy d.output = true) := by
        rintro ⟨ha, -⟩
        rw [hs] at ha
        exact absurd ha (by decide)
      simp only [pollReplicate, hpoll]
      rw [if_neg hc1, if_pos hs]
      simp
  | succ k ih =>
    intro fuel attempt d hk hpre hpoll hs
    match fuel, hk with
    | f + 1, _ =>
      have hp0 : pollPending (pollFn attempt) = true := by
        have h0 := hpre 0 (by omega)
        simpa using h0
      cases hpoll0 : pollFn attempt with
      | notOk => rw [hpoll0] at hp0; simp [pollPending] at hp0
      | okResp d0 =>
        rw [hpoll0] at hp0
        obtain ⟨hc1, hc2⟩ := pollPending_conditions d0 hp0
        have hrec := ih f (attempt + 1) d (by omega)
          (fun j hj => by
            have hx := hpre (j + 1) (by omega)
            have harr : attempt + (j + 1) = attempt + 1 + j := by omega
            rwa [harr] at hx)
          (by rw [← hpoll]; congr 1; omega) hs
        simp only [pollReplicate, hpoll0]
        rw [if_neg hc1, if_neg hc2, hrec]
        refine congrArg₂ _ rfl ?_
        simp [Nat.succ_mul]

/-- Helper: a full budget of pending polls ends in the timeout error, with
one poll and one wait per attempt. -/
theorem pollReplicate_timeout (fetchImg : String → List Nat)
    (pollFn : Nat → PollResponse) :
    ∀ (fuel attempt : Nat),
    (∀ j, j < fuel → pollPending (pollFn (attempt + j)) = true) →
    pollReplicate fetchImg pollFn attempt fuel =
      ⟨.error replicateTimeoutMsg, fuel, fuel * replicatePollIntervalMs⟩ := by
  intro fuel
  induction fuel with
  | zero => intro attempt _; rfl
  | succ f ih =>
    intro attempt hpre
    have hp0 : pollPending (pollFn attempt) = true := by
      have h0 := hpre 0 (by omega)
      simpa using h0
    cases hpoll0 : pollFn attempt with
    | notOk => rw [hpoll0] at hp0; simp [pollPending] at hp0
    | okResp d0 =>
      rw [hpoll0] at hp0
      obtain ⟨hc1, hc2⟩ := pollPending_conditions d0 hp0
      have hrec := ih (attempt + 1)
        (fun j hj => by
          have hx := hpre (j + 1) (by omega)
          have harr : attempt + (j + 1) = attempt + 1 + j := by omega
          rwa [harr] at hx)
      simp only [pollReplicate, hpoll0]
      rw [if_neg hc1, if_neg hc2, hrec]
      refine congrArg₂ _ rfl ?_
      simp [Nat.succ_mul]

/-- Helper: the loop never issues more polls than its budget, and the total
wait is the interval times the number of polls. -/
theorem pollReplicate_counters (fetchImg : String → List Nat)
    (pollFn : Nat → PollResponse) :
    ∀ (fuel attempt : Nat),
    (pollReplicate fetchImg pollFn attempt fuel).polls ≤ fuel ∧
    (pollReplicate fetchImg pollFn attempt fuel).waitMs =
      replicatePollIntervalMs * (pollReplicate fetchImg pollFn attempt fuel).polls := by
  intro fuel
  induction fuel with
  | zero => intro attempt; exact ⟨Nat.le_refl 0, rfl⟩
  | succ f ih =>
    intro attempt
    cases hp : pollFn attempt with
    | notOk =>
      simp only [pollReplicate, hp]
      refine ⟨by show 1 ≤ f + 1; omega, ?_⟩
      show replicatePollIntervalMs = replicatePollIntervalMs * 1
      exact (Nat.mul_one _).symm
    | okResp d =>
      by_cases hc1 : d.status = "succeeded" ∧ outputTruthy d.output = true
      · simp only [pollReplicate, hp]
        rw [if_pos hc1]
        refine ⟨by show 1 ≤ f + 1; omega, ?_⟩
        show replicatePollIntervalMs = replicatePollIntervalMs * 1
        exact (Nat.mul_one _).symm
      · by_cases hc2 : d.status = "failed"
        · simp only [pollReplicate, hp]
          rw [if_neg hc1, if_pos hc2]
          refine ⟨by show 1 ≤ f + 1; omega, ?_⟩
          show replicatePollIntervalMs = replicatePollIntervalMs * 1
          exact (Nat.mul_one _).symm
        · simp only [pollReplicate, hp]
          rw [if_neg hc1, if_neg hc2]
          obtain ⟨hle, hw⟩ := ih (attempt + 1)
          constructor
          · show (pollReplicate fetchImg pollFn (attempt + 1) f).polls + 1 ≤ f + 1
            omega
          · show (pollReplicate fetchImg pollFn (attempt + 1) f).waitMs + replicatePollIntervalMs =
              replicatePollIntervalMs * ((pollReplicate fetchImg pollFn (attempt + 1) f).polls + 1)
            rw [hw]
            ring

/-- C1: on a create response that is not already succeeded and carries a
urls.get link, the Replicate adapter polls that link, waiting 5000 ms
before each of at most 60 polls: the first poll that reports succeeded with
an output makes it return the base64 webp data URI of the fetched output
bytes, a poll that reports failed with an API error message makes it raise
exactly that message, and 60 pending polls make it raise the timeout
error. -/
theorem claim_C1_replicate_poll : ∀ (fetchImg : String → List Nat)
    (pollFn : Nat → PollResponse) (pred : Prediction) (g : String),
    (pred.status ≠ "succeeded" ∧ pred.urls = some g →
      ((∀ k d u, k < replicateMaxAttempts →
          (∀ j, j < k → pollPending (pollFn j) = true) →
          pollFn k = .okResp d → d.status = "succeeded" → outputTruthy d.output = true →
          d.output.bind firstOutputUrl = some u →
          callReplicateAPI fetchImg pollFn pred =
            ⟨.ok ("data:image/webp;base64," ++ arrayBufferToBase64 (fetchImg u)), k + 1,
              (k + 1) * replicatePollIntervalMs⟩) ∧
        (∀ k d e, k < replicateMaxAttempts →
          (∀ j, j < k → pollPending (pollFn j) = true) →
          pollFn k = .okResp d → d.status = "failed" → d.error = some e →
          callReplicateAPI fetchImg pollFn pred =
            ⟨.error e, k + 1, (k + 1) * replicatePollIntervalMs⟩) ∧
        ((∀ j, j < replicateMaxAttempts → pollPending (pollFn j) = true) →
          callReplicateAPI fetchImg pollFn pred =
            ⟨.error replicateTimeoutMsg, replicateMaxAttempts,
              replicateMaxAttempts * replicatePollIntervalMs⟩))) ∧
    ((callReplicateAPI fetchImg pollFn pred).polls ≤ replicateMaxAttempts ∧
      (callReplicateAPI fetchImg pollFn pred).waitMs =
        replicatePollIntervalMs * (callReplicateAPI fetchImg pollFn pred).polls ∧
      replicateMaxAttempts = 60 ∧ replicatePollIntervalMs = 5000) := by
  intro fetchImg pollFn pred g
  constructor
  · rintro ⟨hs, hg⟩
    have hc : ¬(pred.status = "succeeded" ∧ outputTruthy pred.output = true) := by
      rintro ⟨ha, -⟩
      exact hs ha
    have hcall : callReplicateAPI fetchImg pollFn pred =
        pollReplicate fetchImg pollFn 0 replicateMaxAttempts := by
      simp only [callReplicateAPI]
      rw [if_neg hc, hg]
    refine ⟨?_, ?_, ?_⟩
    · intro k d u hk hpre hpoll hsk ht hu
      rw [hcall]
      have := pollReplicate_succeeds fetchImg pollFn k replicateMaxAttempts 0 d hk
        (by simpa using hpre) (by simpa using hpoll) hsk ht
      rw [this]
      simp [fetchAsWebpDataUri, hu]
    · intro k d e hk hpre hpoll hsk herr
      rw [hcall]
      have := pollReplicate_fails fetchImg pollFn k replicateMaxAttempts 0 d hk
        (by simpa using hpre) (by simpa using hpoll) hsk
      rw [this, herr]
      rfl
    · intro hpre
      rw [hcall]
      exact pollReplicate_timeout fetchImg pollFn replicateMaxAttempts 0
        (by simpa using hpre)
  · refine ⟨?_, ?_, rfl, rfl⟩
    · simp only [callReplicateAPI]
      split_ifs with hc
      · exact Nat.zero_le _
      · cases pred.urls with
        | some u => exact (pollReplicate_counters fetchImg pollFn replicateMaxAttempts 0).1
        | none =>
          cases pred.error with
          | some e => exact Nat.zero_le _
          | none => exact Nat.zero_le _
    · simp only [callReplicateAPI]
      split_ifs with hc
      · rfl
      · cases pred.urls with
        | some u => exact (pollReplicate_counters fetchImg pollFn replicateMaxAttempts 0).2
        | none =>
          cases pred.error with
          | some e => rfl
          | none => rfl

/-- Helper: a found index splits the list into the prefix of non-matching
elements, the first match, and the rest; erasing at that index removes
exactly the match. -/
theorem findIdx?_decomp {α : Type} (p : α → Bool) :
    ∀ (l : List α) (i : Nat), l.findIdx? p = some i →
    ∃ pre tgt post, l = pre ++ tgt :: post ∧ p tgt = true ∧ (∀ x ∈ pre, p x = false) ∧
      pre.length = i ∧ l.eraseIdx i = pre ++ post := by
  intro l
  induction l with
  | nil => intro i h; simp [List.findIdx?] at h
  | cons x xs ih =>
    intro i h
    rw [List.findIdx?_cons] at h
    by_cases hx : p x
    · rw [if_pos hx] at h
      injection h with h
      subst h
      exact ⟨[], x, xs, by simp, hx, by simp, rfl, by simp⟩
    · rw [if_neg hx, List.findIdx?_succ] at h
      cases hfind : xs.findIdx? p with
      | none => rw [hfind] at h; simp at h
      | some j =>
        rw [hfind] at h
        simp at h
        obtain ⟨pre, tgt, post, hl, hp, hpre, hlen, herase⟩ := ih j hfind
        subst h
        refine ⟨x :: pre, tgt, post, by simp [hl], hp, ?_, by simp [hlen], ?_⟩
        · intro y hy
          rcases List.mem_cons.mp hy with rfl | hy
          · exact Bool.eq_false_iff.mpr hx
          · exact hpre y hy
        · rw [← hlen]
          show (x :: xs).eraseIdx (pre.length + 1) = (x :: pre) ++ post
          rw [List.eraseIdx_cons_succ]
          rw [hlen, herase]
          rfl

/-- Helper: a matching member gives the search an index to find. -/
theorem findIdx?_of_mem {α : Type} (p : α → Bool) (l : List α) (x : α)
    (hx : x ∈ l) (hp : p x = true) : ∃ i, l.findIdx? p = some i := by
  cases h : l.findIdx? p with
  | some i => exact ⟨i, rfl⟩
  | none =>
    have hfalse := List.findIdx?_eq_none_iff.mp h x hx
    rw [hp] at hfalse
    cases hfalse

/-- C9: deleting the model referenced by settings.activeModelId raises the
specific active-model error and leaves the stored registry untouched;
deletion succeeds exactly on an existing non-active id, in which case it
removes precisely the first model carrying that id and nothing else, and
every thrown error leaves the stored registry untouched. -/
theorem claim_C9_delete_model : ∀ (d : ModelsData) (id : String),
    ((∃ m ∈ d.models, m.id = id) ∧ d.settings.activeModelId = id →
      runDeleteModel d id = (d, .error activeModelDeleteMsg)) ∧
    (∀ d2, deleteModel d id = .ok d2 →
      d2.settings = d.settings ∧ id ≠ d.settings.activeModelId ∧
      ∃ pre tgt post, d.models = pre ++ tgt :: post ∧ tgt.id = id ∧
        (∀ m ∈ pre, m.id ≠ id) ∧ d2.models = pre ++ post) ∧
    ((∃ m ∈ d.models, m.id = id) ∧ id ≠ d.settings.activeModelId →
      ∃ d2, deleteModel d id = .ok d2) ∧
    (∀ e, deleteModel d id = .error e → (runDeleteModel d id).1 = d) := by
  intro d id
  refine ⟨?_, ?_, ?_, ?_⟩
  · rintro ⟨⟨m, hm, hmid⟩, hactive⟩
    obtain ⟨i, hfind⟩ := findIdx?_of_mem (fun m => m.id == id) d.models m hm
      (by simp [hmid])
    have hdel : deleteModel d id = .error activeModelDeleteMsg := by
      simp only [deleteModel, hfind]
      rw [if_pos (by simp [hactive])]
    simp [runDeleteModel, hdel]
  · intro d2 hdel
    cases hfind : d.models.findIdx? (fun m => m.id == id) with
    | none =>
      simp only [deleteModel, hfind] at hdel
      exact Except.noConfusion hdel
    | some i =>
      simp only [deleteModel, hfind] at hdel
      by_cases hactive : (d.settings.activeModelId == id) = true
      · rw [if_pos hactive] at hdel
        exact Except.noConfusion hdel
      · rw [if_neg hactive] at hdel
        injection hdel with hdel
        obtain ⟨pre, tgt, post, hl, hp, hpre, -, herase⟩ :=
          findIdx?_decomp (fun m => m.id == id) d.models i hfind
        refine ⟨by rw [← hdel], ?_, pre, tgt, post, hl, by simpa using hp, ?_, ?_⟩
        · intro heq
          exact (beq_eq_false_iff_ne.mp (by simpa using hactive)) heq.symm
        · intro m hm
          have := hpre m hm
          simpa using this
        · rw [← hdel]
          exact herase
  · rintro ⟨⟨m, hm, hmid⟩, hactive⟩
    obtain ⟨i, hfind⟩ := findIdx?_of_mem (fun m => m.id == id) d.models m hm
      (by simp [hmid])
    refine ⟨{ d with models := d.models.eraseIdx i }, ?_⟩
    simp only [deleteModel, hfind]
    rw [if_neg (by simp; exact fun h => hactive h.symm)]
  · intro e herr
    simp [runDeleteModel, herr]

/-- Helper: every model in a cleared list has the default flag off. -/
theorem mem_clearDefaults (l : List ModelConfig) (m : ModelConfig)
    (hm : m ∈ clearDefaults l) : m.isDefault = false := by
  obtain ⟨x, -, rfl⟩ := List.mem_map.mp hm
  rfl

/-- Helper: a cleared list counts no defaults. -/
theorem countP_clearDefaults (l : List ModelConfig) :
    (clearDefaults l).countP (fun m => m.isDefault) = 0 := by
  rw [List.countP_eq_zero]
  intro m hm
  simp [mem_clearDefaults l m hm]

/-- Helper: indexing an append at the length of its left part reads the
cons head. -/
theorem getElem?_append_cons {α : Type} (a : List α) (b : α) (c : List α) :
    (a ++ b :: c)[a.length]? = some b := by
  induction a with
  | nil => simp
  | cons x rest ih => simpa using ih

/-- Helper: setting at the length of the left part rewrites the cons
head. -/
theorem setAt_append_cons (a : List ModelConfig) (b : ModelConfig)
    (c : List ModelConfig) (f : ModelConfig → ModelConfig) :
    setAt (a ++ b :: c) a.length f = a ++ f b :: c := by
  induction a with
  | nil => rfl
  | cons x rest ih => simp [setAt, ih]

/-- Helper: clearing distributes over append and cons. -/
theorem clearDefaults_append_cons (a : List ModelConfig) (b : ModelConfig)
    (c : List ModelConfig) :
    clearDefaults (a ++ b :: c) =
      clearDefaults a ++ { b with isDefault := false } :: clearDefaults c := by
  simp [clearDefaults]

/-- Helper: shape of a successful addModel: the duplicate check passed, the
returned model is the generated record, and the saved list is the possibly
cleared old list with the new model appended. -/
theorem addModel_ok (d : ModelsData) (model : NewModel) (nowIso : String)
    (d2 : ModelsData) (newM : ModelConfig)
    (h : addModel d model nowIso = .ok (d2, newM)) :
    newM = { id := generateModelId model.name, name := model.name, «type» := model.«type»
             source := model.source, description := model.description
             backends := model.backends, isDefault := model.isDefault
             enabled := model.enabled, createdAt := nowIso, updatedAt := none } ∧
    d2 = { d with models := (if model.isDefault then clearDefaults d.models else d.models) ++ [newM] } := by
  simp only [addModel] at h
  by_cases hdup : d.models.any
      (fun m => m.id == generateModelId model.name) = true
  · rw [if_pos hdup] at h
    exact Except.noConfusion h
  · rw [if_neg hdup] at h
    injection h with h
    injection h with h1 h2
    subst h2
    constructor
    · rfl
    · rw [← h1]

/-- Helper: shape of a successful updateModel: an index was found, the
element of the possibly cleared list at that index was read, and the saved
list carries the merged model at that index. -/
theorem updateModel_ok (d : ModelsData) (id : String) (u : ModelUpdates)
    (nowIso : String) (d2 : ModelsData) (upd : ModelConfig)
    (h : updateModel d id u nowIso = .ok (d2, upd)) :
    ∃ i cur, d.models.findIdx? (fun m => m.id == id) = some i ∧
      (if u.isDefault = some true then clearDefaults d.models else d.models)[i]? = some cur ∧
      upd = applyUpdates cur u nowIso ∧
      d2 = { d with models := setAt (if u.isDefault = some true then clearDefaults d.models else d.models) i (fun _ => applyUpdates cur u nowIso) } := by
  cases hfind : d.models.findIdx? (fun m => m.id == id) with
  | none =>
    simp only [updateModel, hfind] at h
    exact Except.noConfusion h
  | some i =>
    simp only [updateModel, hfind] at h
    cases hget : (if u.isDefault = some true then clearDefaults d.models else d.models)[i]? with
    | none =>
      rw [hget] at h
      exact Except.noConfusion h
    | some cur =>
      rw [hget] at h
      injection h with h
      injection h with h1 h2
      subst h2
      exact ⟨i, cur, rfl, hget, rfl, by rw [← h1]⟩

/-- C8: an addModel or updateModel that installs a model as the default
clears the flag on every other stored model, so the new registry has
exactly one default; moreover every admin mutation preserves the invariant
that at most one stored model is flagged as the default. -/
theorem claim_C8_single_default : ∀ (d : ModelsData),
    (∀ (model : NewModel) (nowIso : String) (d2 : ModelsData) (newM : ModelConfig),
      addModel d model nowIso = .ok (d2, newM) → model.isDefault = true →
      (∀ m ∈ d2.models, m.isDefault = true → m = newM) ∧ countDefaults d2 = 1) ∧
    (∀ (id : String) (u : ModelUpdates) (nowIso : String) (d2 : ModelsData)
      (upd : ModelConfig),
      updateModel d id u nowIso = .ok (d2, upd) → u.isDefault = some true →
      (∀ m ∈ d2.models, m.isDefault = true → m = upd) ∧ countDefaults d2 = 1) ∧
    (∀ d2, RegistryStep d d2 → countDefaults d ≤ 1 → countDefaults d2 ≤ 1) := by
  intro d
  have haddTrue : ∀ (model : NewModel) (nowIso : String) (d2 : ModelsData)
      (newM : ModelConfig),
      addModel d model nowIso = .ok (d2, newM) → model.isDefault = true →
      (∀ m ∈ d2.models, m.isDefault = true → m = newM) ∧ countDefaults d2 = 1 := by
    intro model nowIso d2 newM h hdef
    obtain ⟨hnew, hd2⟩ := addModel_ok d model nowIso d2 newM h
    have hnewdef : newM.isDefault = true := by rw [hnew]; exact hdef
    subst hd2
    rw [if_pos hdef]
    constructor
    · intro m hm hmdef
      rcases List.mem_append.mp hm with hm | hm
      · rw [mem_clearDefaults d.models m hm] at hmdef
        cases hmdef
      · simpa using hm
    · show ((clearDefaults d.models ++ [newM]).countP fun m => m.isDefault) = 1
      rw [List.countP_append, countP_clearDefaults]
      simp [hnewdef]
  have hupdTrue : ∀ (id : String) (u : ModelUpdates) (nowIso : String)
      (d2 : ModelsData) (upd : ModelConfig),
      updateModel d id u nowIso = .ok (d2, upd) → u.isDefault = some true →
      (∀ m ∈ d2.models, m.isDefault = true → m = upd) ∧ countDefaults d2 = 1 := by
    intro id u nowIso d2 upd h hdef
    obtain ⟨i, cur, hfind, hget, hupd, hd2⟩ := updateModel_ok d id u nowIso d2 upd h
    obtain ⟨pre, tgt, post, hl, -, -, hlen, -⟩ :=
      findIdx?_decomp (fun m => m.id == id) d.models i hfind
    rw [if_pos hdef] at hget
    rw [hl, clearDefaults_append_cons] at hget
    have hlen2 : (clearDefaults pre).length = i := by
      simpa [clearDefaults] using hlen
    rw [← hlen2, getElem?_append_cons] at hget
    injection hget with hget
    have hupddef : upd.isDefault = true := by
      rw [hupd]
      simp [applyUpdates, hdef]
    subst hd2
    rw [if_pos hdef, hl, clearDefaults_append_cons, ← hlen2, setAt_append_cons]
    constructor
    · intro m hm hmdef
      rcases List.mem_append.mp hm with hm | hm
      · rw [mem_clearDefaults pre m hm] at hmdef
        cases hmdef
      · rcases List.mem_cons.mp hm with rfl | hm
        · rw [hupd]
        · rw [mem_clearDefaults post m hm] at hmdef
          cases hmdef
    · show ((clearDefaults pre ++ applyUpdates cur u nowIso :: clearDefaults post).countP
        fun m => m.isDefault) = 1
      rw [List.countP_append, countP_clearDefaults, List.countP_cons, countP_clearDefaults]
      rw [← hupd]
      simp [hupddef]
  refine ⟨haddTrue, hupdTrue, ?_⟩
  intro d2 hstep hinv
  cases hstep with
  | add model nowIso newM h =>
    obtain ⟨hnew, hd2⟩ := addModel_ok d model nowIso d2 newM h
    by_cases hdef : model.isDefault = true
    · have := (haddTrue model nowIso d2 newM h hdef).2
      omega
    · have hnewdef : newM.isDefault = false := by
        rw [hnew]
        simpa using hdef
      subst hd2
      show ((if model.isDefault then clearDefaults d.models else d.models) ++ [newM]).countP
        (fun m => m.isDefault) ≤ 1
      rw [if_neg hdef, List.countP_append]
      have : ([newM].countP fun m => m.isDefault) = 0 := by simp [hnewdef]
      rw [this]
      simpa using hinv
  | update id u nowIso upd h =>
    by_cases hdef : u.isDefault = some true
    · have := (hupdTrue id u nowIso d2 upd h hdef).2
      omega
    · obtain ⟨i, cur, hfind, hget, hupd, hd2⟩ := updateModel_ok d id u nowIso d2 upd h
      obtain ⟨pre, tgt, post, hl, -, -, hlen, -⟩ :=
        findIdx?_decomp (fun m => m.id == id) d.models i hfind
      rw [if_neg hdef] at hget
      rw [hl, ← hlen, getElem?_append_cons] at hget
      injection hget with hget
      subst hget
      subst hd2
      rw [if_neg hdef, hl, ← hlen, setAt_append_cons]
      have hinv2 : ((pre ++ tgt :: post).countP fun m => m.isDefault) ≤ 1 := by
        rw [← hl]
        exact hinv

      show ((pre ++ applyUpdates tgt u nowIso :: post).countP fun m => m.isDefault) ≤ 1
      rw [List.countP_append, List.countP_cons] at hinv2 ⊢
      have hflag : (if (applyUpdates tgt u nowIso).isDefault = true then 1 else 0) ≤
          (if tgt.isDefault = true then 1 else 0) := by
        have : (applyUpdates tgt u nowIso).isDefault = u.isDefault.getD tgt.isDefault := rfl
        cases hu : u.isDefault with
        | none => simp [this, hu]
        | some b =>
          cases b with
          | true => exact absurd hu hdef
          | false => simp [this, hu]
      omega
  | del id h =>
    cases hfind : d.models.findIdx? (fun m => m.id == id) with
    | none =>
      simp only [deleteModel, hfind] at h
      exact Except.noConfusion h
    | some i =>
      simp only [deleteModel, hfind] at h
      by_cases hactive : (d.settings.activeModelId == id) = true
      · rw [if_pos hactive] at h
        exact Except.noConfusion h
      · rw [if_neg hactive] at h
        injection h with h
        obtain ⟨pre, tgt, post, hl, -, -, -, herase⟩ :=
          findIdx?_decomp (fun m => m.id == id) d.models i hfind
        have hmodels : d2.models = pre ++ post := by rw [← h]; exact herase
        have hinv2 : ((pre ++ tgt :: post).countP fun m => m.isDefault) ≤ 1 := by
          rw [← hl]
          exact hinv
        show (d2.models.countP fun m => m.isDefault) ≤ 1
        rw [hmodels]
        rw [List.countP_append, List.countP_cons] at hinv2
        rw [List.countP_append]
        omega

/-- C3 counterexample: a multipart request declaring mode edit with zero
attached images and a non-empty prompt is not rejected: the handler never
reads the mode field and performs no image-count validation, so with the
model bagel-7b-mot from the default registry it reaches the BAGEL
text-to-image adapter (even with the backend cache unavailable). -/
theorem claim_C3_counterexample :
    generateDispatch
      { prompt := some "remove the background", negative_prompt := none,
        mode := some "edit", image1 := none, image2 := none,
        aspect_ratio := some "1:1", resolution := some "1024",
        modelId := some "bagel-7b-mot", model_id := none }
      defaultConfig (unavailableStatus 0) none = Dispatch.bagelTextToImage ∧
    isAdapterCall Dispatch.bagelTextToImage = true ∧
    isValidationReject Dispatch.bagelTextToImage = false := by
  exact ⟨by decide, rfl, rfl⟩

/-- C3 amended: the handler validates only the prompt before dispatch: a
missing or empty prompt is rejected with the 400 prompt error before any
adapter is invoked, every decision that invokes an adapter had a non-empty
prompt, and the only image-count check is inside the Replicate branch,
which is never reached with zero attached images. -/
theorem claim_C3_prompt_validation : ∀ (form : GenForm) (registry : ModelsData)
    (status : BackendStatus) (envUrl : Option String),
    ((form.prompt = none ∨ form.prompt = some "") →
      generateDispatch form registry status envUrl = .reject400 promptRequiredMsg) ∧
    (isAdapterCall (generateDispatch form registry status envUrl) = true →
      ∃ p, form.prompt = some p ∧ p ≠ "") ∧
    (generateDispatch form registry status envUrl = .replicateAdapter →
      (form.image1 ≠ none ∨ form.image2 ≠ none)) := by
  intro form registry status envUrl
  have hrej : (form.prompt = none ∨ form.prompt = some "") →
      generateDispatch form registry status envUrl = .reject400 promptRequiredMsg := by
    intro h
    rcases h with h | h <;> simp [generateDispatch, jsOrStr, h]
  refine ⟨hrej, ?_, ?_⟩
  · intro hAd
    cases hpr : form.prompt with
    | none =>
      rw [hrej (.inl hpr)] at hAd
      simp [isAdapterCall] at hAd
    | some p =>
      by_cases hp : p = ""
      · subst hp
        rw [hrej (.inr hpr)] at hAd
        simp [isAdapterCall] at hAd
      · exact ⟨p, rfl, hp⟩
  · intro hrep
    by_contra hno
    push_neg at hno
    obtain ⟨h1, h2⟩ := hno
    simp only [generateDispatch] at hrep
    repeat' split at hrep
    all_goals
      first
      | exact Dispatch.noConfusion hrep
      | exact absurd (And.intro h1 h2) (by assumption)

/-! ## Concrete evaluations

Closed instances of the testable properties, evaluated on explicit
inputs. -/

/-- Image fetch of the polling scenario: two bytes. -/
def exFetch : String → List Nat := fun _ => [137, 80]

/-- Poll responses of the scenario: one processing body, then succeeded
with an output URL. -/
def exPoll : Nat → PollResponse := fun n =>
  if n = 0 then .okResp ⟨"processing", none, none⟩
  else .okResp ⟨"succeeded", some (.single "https://x/y.png"), none⟩

/-- Create response of the scenario: processing, with a poll link. -/
def exPred : Prediction := ⟨"processing", none, none, some "https://api.example/poll"⟩

/-- The seven-key table at base 1024, and an unknown key. -/
theorem calculateDimensions_examples :
    calculateDimensions "1:1" 1024 = (1024, 1024) ∧
    calculateDimensions "16:9" 1024 = (1024, 576) ∧
    calculateDimensions "9:16" 1024 = (576, 1024) ∧
    calculateDimensions "4:3" 1024 = (1024, 768) ∧
    calculateDimensions "3:4" 1024 = (768, 1024) ∧
    calculateDimensions "3:2" 1024 = (1024, 683) ∧
    calculateDimensions "2:3" 1024 = (683, 1024) ∧
    calculateDimensions "unknown" 1024 = (1024, 1024) := by decide

/-- Base64 round trip on explicit bytes, through the chunked encoder. -/
theorem base64_roundtrip_example :
    arrayBufferToBase64 [137, 80] = "iVA=" ∧ atob "iVA=" = some [137, 80] := by
  constructor
  · show btoa (buildBinary [137, 80]) = "iVA="
    rw [buildBinary_eq]
    decide
  · decide

/-- A failing translation fetch passes the prompt through unchanged, and a
successful one returns the payload text. -/
theorem translate_examples :
    translateToEnglish "猫の絵" .threw = "猫の絵" ∧
    translateToEnglish "猫の絵" (.notOk 500) = "猫の絵" ∧
    translateToEnglish "猫の絵" (.okResp (some ⟨200, some "a cat picture"⟩)) =
      "a cat picture" := by
  exact ⟨rfl, rfl, by decide⟩

/-- The simulated Replicate run of the spec: a processing create response,
one pending poll, then success: the adapter returns the data URI of the
fetched bytes after exactly two polls with a five-second wait before
each. -/
theorem replicate_two_poll_example :
    callReplicateAPI exFetch exPoll exPred =
      ⟨.ok "data:image/webp;base64,iVA=", 2, 2 * replicatePollIntervalMs⟩ := by
  have h1 : arrayBufferToBase64 (exFetch "https://x/y.png") = "iVA=" := by
    show btoa (buildBinary [137, 80]) = "iVA="
    rw [buildBinary_eq]
    decide
  have hpre : ∀ j, j < 1 → pollPending (exPoll (0 + j)) = true := by
    intro j hj
    have hj0 : j = 0 := by omega
    subst hj0
    decide
  have hs := pollReplicate_succeeds exFetch exPoll 1 replicateMaxAttempts 0
      ⟨"succeeded", some (.single "https://x/y.png"), none⟩ (by decide)
      hpre (by decide) rfl rfl
  have hcall : callReplicateAPI exFetch exPoll exPred =
      pollReplicate exFetch exPoll 0 replicateMaxAttempts := by
    simp only [callReplicateAPI]
    rw [if_neg (by decide)]
    rfl
  rw [hcall, hs]
  have hstr : ("data:image/webp;base64," ++ "iVA=" : String) =
      "data:image/webp;base64,iVA=" := by decide
  show ReplicateRun.mk
      (.ok ("data:image/webp;base64," ++ arrayBufferToBase64 (exFetch "https://x/y.png"))) 2
      (2 * replicatePollIntervalMs) = _
  rw [h1, hstr]

end QwenProxy
